import Mathlib

/-!
Verification model of the i2pd-exporter core: the authenticated JSON-RPC
execution engine (src/i2pcontrol/client.rs, src/i2pcontrol/rpc.rs,
src/i2pcontrol/types.rs) and the scrape-timeout resolver (src/server.rs).

Modelling conventions:
* Rust `f64` seconds and `Duration`/`Instant` values are modelled as rationals
  (`Time := ℚ`); all the arithmetic performed on them by the modelled code
  (compare, subtract, `max`, `min`, saturating subtraction) is exact.
* Rust machine integers become `Nat`/`Int` (none of the modelled code performs
  arithmetic that could wrap the Rust types).
* Rust `String` values become `String`; HTTP response bodies become
  `List Char`, since the code inspects them exclusively through `chars()`
  (i.e. by Unicode scalar values).
* Network I/O and clock readings are modelled by an explicit oracle (`World`):
  the n-th `Instant::now()` reading and the n-th response of each remote
  method are drawn from it, so theorems quantify over every possible remote
  behaviour and timing.
-/

/-- Seconds; models Rust `f64` seconds, `Duration` and `Instant` values. -/
abbrev Time := ℚ

/-! ## src/server.rs — the scrape-timeout resolver -/

/-- The states of the `X-Prometheus-Scrape-Timeout-Seconds` header as seen by
`effective_timeout` (src/server.rs:22-26): missing (`headers.get` is `None` or
`to_str` fails), present but not parseable as a number (`parse::<f64>()`
fails), parseable but non-finite (dropped by `.filter(|v| v.is_finite())`), or
a finite numeric value. -/
inductive ScrapeHeader where
  | missing
  | nonNumeric
  | nonFinite
  | finite (secs : ℚ)
deriving DecidableEq

/-- src/server.rs:19 `const MARGIN: f64 = 0.5`. -/
def MARGIN : ℚ := 1/2

/-- src/server.rs:20 `const MARGIN_THRESHOLD: f64 = 3.0`. -/
def MARGIN_THRESHOLD : ℚ := 3

/-- The header-extraction pipeline of src/server.rs:22-26
(`headers.get(..).and_then(to_str).and_then(parse).filter(is_finite)?`):
yields `some` exactly for a finite numeric header value. -/
def parse_scrape_header : ScrapeHeader → Option ℚ
  | .finite secs => some secs
  | _ => none

/-- src/server.rs:18-36 `effective_timeout`: on a finite numeric header value
`secs`, subtract `MARGIN` when `secs > MARGIN_THRESHOLD`, clamp below by
`0.1` (`adjusted.max(0.1)`) and above by `hard_max` (`adjusted.min(..)`). -/
def effective_timeout (h : ScrapeHeader) (hard_max : Time) : Option Time :=
  match parse_scrape_header h with
  | none => none
  | some secs =>
    let adjusted := if MARGIN_THRESHOLD < secs then secs - MARGIN else secs
    let adjusted2 := max adjusted (1/10)
    let capped := min adjusted2 hard_max
    some capped

/-! ## src/i2pcontrol/types.rs — result types and snapshot merge -/

/-- src/i2pcontrol/types.rs:8-12 `AuthResult`: the decoded result of the
`Authenticate` method; the `Token` field is optional. -/
structure AuthResult where
  token : Option String
deriving DecidableEq

/-- src/i2pcontrol/types.rs:15-77 `RouterInfoResult`: a flat record of
independently optional status fields (`u8`/`u64` fields become `Nat`, `f64`
fields become `ℚ`, strings stay `String`). -/
structure RouterInfoResult where
  router_status : Option Nat
  router_version : Option String
  router_uptime : Option Nat
  bw_inbound_1s : Option ℚ
  bw_inbound_15s : Option ℚ
  bw_outbound_1s : Option ℚ
  bw_outbound_15s : Option ℚ
  bw_transit_15s : Option ℚ
  net_status : Option Nat
  net_status_v6 : Option Nat
  net_error : Option Nat
  net_error_v6 : Option Nat
  net_testing : Option Nat
  net_testing_v6 : Option Nat
  tunnels_participating : Option Nat
  tunnels_inbound : Option Nat
  tunnels_outbound : Option Nat
  tunnels_successrate : Option ℚ
  tunnels_total_successrate : Option ℚ
  tunnels_queue : Option Nat
  tunnels_tbmqueue : Option Nat
  netdb_activepeers : Option Nat
  netdb_knownpeers : Option Nat
  netdb_floodfills : Option Nat
  netdb_leasesets : Option Nat
  net_total_received_bytes : Option ℚ
  net_total_sent_bytes : Option ℚ
  net_transit_sent_bytes : Option ℚ
deriving DecidableEq

/-- The all-absent snapshot (`RouterInfoResult::default()` — every field is
`#[serde(default)]`-style `None`). -/
def RouterInfoResult.empty : RouterInfoResult :=
  ⟨none, none, none, none, none, none, none, none, none, none, none, none,
   none, none, none, none, none, none, none, none, none, none, none, none,
   none, none, none, none⟩

/-- src/i2pcontrol/types.rs:81-166 `RouterInfoResult::merge_from`: the source
runs one `if let Some(v) = other.f { self.f = Some(v) }` per field, each
touching its own distinct field, so the sequence of in-place updates is
rendered as the equivalent simultaneous per-field record: each field takes
`other`'s value when present and keeps `self`'s value otherwise. -/
def RouterInfoResult.merge_from (self other : RouterInfoResult) : RouterInfoResult where
  router_status := match other.router_status with
    | some v => some v | none => self.router_status
  router_version := match other.router_version with
    | some v => some v | none => self.router_version
  router_uptime := match other.router_uptime with
    | some v => some v | none => self.router_uptime
  bw_inbound_1s := match other.bw_inbound_1s with
    | some v => some v | none => self.bw_inbound_1s
  bw_inbound_15s := match other.bw_inbound_15s with
    | some v => some v | none => self.bw_inbound_15s
  bw_outbound_1s := match other.bw_outbound_1s with
    | some v => some v | none => self.bw_outbound_1s
  bw_outbound_15s := match other.bw_outbound_15s with
    | some v => some v | none => self.bw_outbound_15s
  bw_transit_15s := match other.bw_transit_15s with
    | some v => some v | none => self.bw_transit_15s
  net_status := match other.net_status with
    | some v => some v | none => self.net_status
  net_status_v6 := match other.net_status_v6 with
    | some v => some v | none => self.net_status_v6
  net_error := match other.net_error with
    | some v => some v | none => self.net_error
  net_error_v6 := match other.net_error_v6 with
    | some v => some v | none => self.net_error_v6
  net_testing := match other.net_testing with
    | some v => some v | none => self.net_testing
  net_testing_v6 := match other.net_testing_v6 with
    | some v => some v | none => self.net_testing_v6
  tunnels_participating := match other.tunnels_participating with
    | some v => some v | none => self.tunnels_participating
  tunnels_inbound := match other.tunnels_inbound with
    | some v => some v | none => self.tunnels_inbound
  tunnels_outbound := match other.tunnels_outbound with
    | some v => some v | none => self.tunnels_outbound
  tunnels_successrate := match other.tunnels_successrate with
    | some v => some v | none => self.tunnels_successrate
  tunnels_total_successrate := match other.tunnels_total_successrate with
    | some v => some v | none => self.tunnels_total_successrate
  tunnels_queue := match other.tunnels_queue with
    | some v => some v | none => self.tunnels_queue
  tunnels_tbmqueue := match other.tunnels_tbmqueue with
    | some v => some v | none => self.tunnels_tbmqueue
  netdb_activepeers := match other.netdb_activepeers with
    | some v => some v | none => self.netdb_activepeers
  netdb_knownpeers := match other.netdb_knownpeers with
    | some v => some v | none => self.netdb_knownpeers
  netdb_floodfills := match other.netdb_floodfills with
    | some v => some v | none => self.netdb_floodfills
  netdb_leasesets := match other.netdb_leasesets with
    | some v => some v | none => self.netdb_leasesets
  net_total_received_bytes := match other.net_total_received_bytes with
    | some v => some v | none => self.net_total_received_bytes
  net_total_sent_bytes := match other.net_total_sent_bytes with
    | some v => some v | none => self.net_total_sent_bytes
  net_transit_sent_bytes := match other.net_transit_sent_bytes with
    | some v => some v | none => self.net_transit_sent_bytes

/-! ## src/i2pcontrol/rpc.rs — transport error type, snippets, envelope -/

/-- src/i2pcontrol/rpc.rs:20-24 `RpcError`: the error member of a JSON-RPC
response. -/
structure RpcErrorM where
  code : ℤ
  message : String
deriving DecidableEq

/-- src/i2pcontrol/rpc.rs:27-55 `RpcCallError`: the structured failure type of
`rpc_call`. `Transport` carries an opaque `reqwest::Error` (modelled by its
message), `Http` the status plus a body snippet, `Rpc` the application error,
`Decode` the parse error plus a body snippet. -/
inductive RpcCallError where
  | transport (message : String)
  | encode (error : String) (method : String)
  | http (status : Nat) (method : String) (body_snippet : List Char)
  | rpc (code : ℤ) (message : String) (method : String)
  | decode (error : String) (method : String) (body_snippet : List Char)
deriving DecidableEq

/-- src/i2pcontrol/rpc.rs:10-17 `truncate_chars`: collect at most `max` chars
(`s.chars().take(max)`), return `s` itself when it has at most `max` chars and
the truncation otherwise. -/
def truncate_chars (s : List Char) (max : Nat) : List Char :=
  let t := s.take max
  if s.length ≤ max then s else t

/-- The UTF-8 byte sequence of one Unicode scalar value, as Rust and Lean
encode `char`/`Char` into a UTF-8 string. -/
def charUtf8 (c : Char) : List Nat :=
  let n := c.toNat
  if n < 0x80 then [n]
  else if n < 0x800 then
    [0xC0 ||| (n >>> 6), 0x80 ||| (n &&& 0x3F)]
  else if n < 0x10000 then
    [0xE0 ||| (n >>> 12), 0x80 ||| ((n >>> 6) &&& 0x3F), 0x80 ||| (n &&& 0x3F)]
  else
    [0xF0 ||| (n >>> 18), 0x80 ||| ((n >>> 12) &&& 0x3F),
     0x80 ||| ((n >>> 6) &&& 0x3F), 0x80 ||| (n &&& 0x3F)]

/-- The UTF-8 byte sequence of a character list (a Rust `String`'s bytes). -/
def utf8Encode (s : List Char) : List Nat :=
  s.flatMap charUtf8

/-- The fixed placeholder substituted for the body snippet on the
authentication method (src/i2pcontrol/rpc.rs:132, 167): `"<omitted>"`. -/
def omittedSnippet : List Char := "<omitted>".toList

/-- Snippet construction for the non-2xx `Http` error branch of `rpc_call`
(src/i2pcontrol/rpc.rs:130-137): the fixed placeholder for the
`"Authenticate"` method, otherwise the body truncated to 2048 chars when it
exceeds 2048 chars and the body itself otherwise. -/
def http_body_snippet (method : String) (body : List Char) : List Char :=
  if method = "Authenticate" then omittedSnippet
  else if 2048 < body.length then truncate_chars body 2048
  else body

/-- Snippet construction for the `Decode` error branch of `rpc_call`
(src/i2pcontrol/rpc.rs:166-172); textually identical logic to the `Http`
branch. -/
def decode_body_snippet (method : String) (text : List Char) : List Char :=
  if method = "Authenticate" then omittedSnippet
  else if 2048 < text.length then truncate_chars text 2048
  else text

/-- A 2xx response body as seen by the untagged `RpcOutcome<T>` decoder
(src/i2pcontrol/rpc.rs:57-63): either it is not a JSON object at all
(or fails JSON parsing), or it is an object characterized by whether it has a
`"result"` member that decodes as `T` and whether it has an `"error"` member
that decodes as `RpcError`. -/
inductive RpcBody (T : Type) where
  | notObject
  | obj (result : Option T) (error : Option RpcErrorM)
deriving DecidableEq

/-- The response-parsing match of `rpc_call` (src/i2pcontrol/rpc.rs:157-179)
combined with serde untagged-enum semantics for `RpcOutcome<T>`
(src/i2pcontrol/rpc.rs:57-63): the variants are tried in declaration order,
`Ok { result: T }` first, and a struct variant ignores unknown members.  So a
body whose `"result"` member decodes yields `Ok(result)` (any `"error"` member
is ignored as an unknown field); otherwise a body whose `"error"` member
decodes yields `RpcCallError::Rpc` with that error's code and message; a body
matching neither variant fails deserialization and yields
`RpcCallError::Decode` with the snippet-redaction rule applied to the raw
text. -/
def rpc_call_parse_response {T : Type} (method : String) (text : List Char)
    (b : RpcBody T) : Except RpcCallError T :=
  match b with
  | .obj (some result) _ => .ok result
  | .obj none (some e) => .error (.rpc e.code e.message method)
  | .obj none none =>
      .error (.decode "data did not match any variant of untagged enum RpcOutcome"
        method (decode_body_snippet method text))
  | .notObject =>
      .error (.decode "invalid JSON" method (decode_body_snippet method text))

/-- Whether a `rpc_call` outcome is the `Decode` failure branch. -/
def isDecodeFailure {T : Type} : Except RpcCallError T → Bool
  | .error (.decode _ _ _) => true
  | _ => false

/-! ## src/i2pcontrol/client.rs — the fetch engine, sequential model

A single `fetch_router_info` call is modelled as a deterministic computation
against a `World` oracle supplying the successive `Instant::now()` readings
and the successive network responses of each remote method.  The `loop` of
src/i2pcontrol/client.rs:89-219 becomes a step function `loop_iter` (one loop
iteration, up to `return` or `continue`) iterated by the fuel-indexed
`run_fetch`; termination within fuel 2 is itself one of the proved claims. -/

/-- The boxed `dyn Error` values produced by `I2pControlClient` methods:
either a boxed `RpcCallError`, the `"Authentication failed: no token
received"` error of src/i2pcontrol/client.rs:77, or one of the three synthetic
`TimedOut` io errors of src/i2pcontrol/client.rs:110-115, 167-172, 204-209. -/
inductive ClientError where
  | rpc (e : RpcCallError)
  | authFailedNoToken
  | deadlineBeforeAuth
  | deadlineBeforeRouterInfo
  | deadlineBeforeReauth
deriving DecidableEq

/-- src/i2pcontrol/client.rs:184-190: the retry predicate — the error matches
`RpcCallError::Rpc { code: -32004..=-32002, .. }`. -/
def is_token_err : RpcCallError → Bool
  | .rpc code _ _ => decide (-32004 ≤ code ∧ code ≤ -32002)
  | _ => false

/-- The environment of one external fetch call: `times n` is the n-th
`Instant::now()` reading taken during the call (the very first, index 0, is
the one at src/i2pcontrol/client.rs:86 that fixes the deadline), `authResp n`
is the outcome of the n-th dispatched `Authenticate` network call, and
`fetchResp n` the outcome of the n-th dispatched `RouterInfo` network call. -/
structure World where
  times : Nat → Time
  authResp : Nat → Except RpcCallError AuthResult
  fetchResp : Nat → Except RpcCallError RouterInfoResult

/-- A dispatched network call, recording the per-call timeout handed to
`rpc_call`. -/
inductive Event where
  | authCall (timeout : Time)
  | fetchCall (timeout : Time)
deriving DecidableEq

/-- The timeout a dispatched call was given. -/
def Event.timeout : Event → Time
  | .authCall t => t
  | .fetchCall t => t

/-- The mutable state threaded through one external fetch call: the shared
token cell (`self.token`), the number of `Instant::now()` readings taken so
far, the numbers of dispatched `Authenticate` and `RouterInfo` network calls,
the `did_retry` flag of src/i2pcontrol/client.rs:87, and the log of
dispatched network calls. -/
structure SeqState where
  token : Option String
  timeIdx : Nat
  authCalls : Nat
  fetchCalls : Nat
  did_retry : Bool
  events : List Event
deriving DecidableEq

/-- Take the next `Instant::now()` reading. -/
def read_now (w : World) (s : SeqState) : Time × SeqState :=
  (w.times s.timeIdx, { s with timeIdx := s.timeIdx + 1 })

/-- The remaining-time computation repeated at src/i2pcontrol/client.rs:
103-108, 160-165 and 197-202: `if now >= deadline { 0 } else
{ deadline.saturating_duration_since(now) }`. -/
def remaining_at (deadline now : Time) : Time :=
  if deadline ≤ now then 0 else deadline - now

/-- src/i2pcontrol/client.rs:45-78 `I2pControlClient::authenticate`, executed
without interleaving (the concurrent version is modelled separately below).
Acquires `auth_lock` (uncontended here), re-reads the shared token and
returns it immediately when present (the double-check of line 53), otherwise
dispatches the `Authenticate` network call with the given timeout; a
structurally valid response carrying a token stores it into the shared cell
and returns it, a response without one is the terminal `AuthenticationFailed`
error, and any `RpcCallError` is propagated boxed. -/
def authenticate (w : World) (timeout : Time) (s : SeqState) :
    Except ClientError String × SeqState :=
  match s.token with
  | some existing => (.ok existing, s)
  | none =>
    let resp := w.authResp s.authCalls
    let s' := { s with
      authCalls := s.authCalls + 1
      events := s.events ++ [.authCall timeout] }
    match resp with
    | .error e => (.error (.rpc e), s')
    | .ok r =>
      match r.token with
      | some tok => (.ok tok, { s' with token := some tok })
      | none => (.error .authFailedNoToken, s')

/-- The 28 status keys requested by `fetch_router_info`
(src/i2pcontrol/client.rs:123-152). -/
def router_info_keys : List String :=
  ["i2p.router.status", "i2p.router.version", "i2p.router.uptime",
   "i2p.router.net.bw.inbound.1s", "i2p.router.net.bw.inbound.15s",
   "i2p.router.net.bw.outbound.1s", "i2p.router.net.bw.outbound.15s",
   "i2p.router.net.bw.transit.15s", "i2p.router.net.status",
   "i2p.router.net.status.v6", "i2p.router.net.error",
   "i2p.router.net.error.v6", "i2p.router.net.testing",
   "i2p.router.net.testing.v6", "i2p.router.net.tunnels.participating",
   "i2p.router.net.tunnels.inbound", "i2p.router.net.tunnels.outbound",
   "i2p.router.net.tunnels.successrate",
   "i2p.router.net.tunnels.totalsuccessrate", "i2p.router.net.tunnels.queue",
   "i2p.router.net.tunnels.tbmqueue", "i2p.router.netdb.activepeers",
   "i2p.router.netdb.knownpeers", "i2p.router.netdb.floodfills",
   "i2p.router.netdb.leasesets", "i2p.router.net.total.received.bytes",
   "i2p.router.net.total.sent.bytes", "i2p.router.net.transit.sent.bytes"]

/-- The parameter map built at src/i2pcontrol/client.rs:122-157: every status
key mapped to the empty string, plus the `Token` entry. -/
def router_info_params (token : String) : List (String × String) :=
  router_info_keys.map (fun k => (k, "")) ++ [("Token", token)]

deriving instance DecidableEq for Except

/-- The outcome of one iteration of the `loop`: `done r` models `return r`,
`again` models `continue`. -/
inductive IterOut where
  | done (r : Except ClientError RouterInfoResult)
  | again
deriving DecidableEq

/-- The part of a loop iteration after a token is in hand
(src/i2pcontrol/client.rs:120-218): build the parameters, re-derive the
remaining time from the deadline (returning the synthetic `TimedOut` error
without dispatching when none remains), dispatch the `RouterInfo` call with
the remaining time as its timeout, and on failure clear the token,
re-authenticate and retry exactly when the error is a credential-expiry `Rpc`
error and no retry has happened yet in this call. -/
def after_token (w : World) (deadline : Time) (token : String) (s : SeqState) :
    IterOut × SeqState :=
  let _params := router_info_params token
  let (now, s) := read_now w s
  let rem := remaining_at deadline now
  if rem = 0 then (.done (.error .deadlineBeforeRouterInfo), s)
  else
    let resp := w.fetchResp s.fetchCalls
    let s := { s with
      fetchCalls := s.fetchCalls + 1
      events := s.events ++ [.fetchCall rem] }
    match resp with
    | .ok data => (.done (.ok data), s)
    | .error err =>
      if is_token_err err && !s.did_retry then
        let s := { s with token := none }
        let (now, s) := read_now w s
        let rem := remaining_at deadline now
        if rem = 0 then (.done (.error .deadlineBeforeReauth), s)
        else
          match authenticate w rem s with
          | (.error e, s) => (.done (.error e), s)
          | (.ok _, s) => (.again, { s with did_retry := true })
      else (.done (.error (.rpc err)), s)

/-- One iteration of the `loop` of src/i2pcontrol/client.rs:89-219, from the
token read at the top to `return` (`done`) or `continue` (`again`): read the
shared token; when absent, re-derive the remaining time (returning the
synthetic `TimedOut` error without dispatching when none remains) and
authenticate with it, propagating any error; then proceed with the token. -/
def loop_iter (w : World) (deadline : Time) (s : SeqState) :
    IterOut × SeqState :=
  match s.token with
  | some tok => after_token w deadline tok s
  | none =>
    let (now, s) := read_now w s
    let rem := remaining_at deadline now
    if rem = 0 then (.done (.error .deadlineBeforeAuth), s)
    else
      match authenticate w rem s with
      | (.error e, s) => (.done (.error e), s)
      | (.ok tok, s) => after_token w deadline tok s

/-- Fuel-indexed iteration of `loop_iter`; `none` means the fuel was
exhausted before the loop returned. -/
def run_fetch (w : World) (deadline : Time) :
    Nat → SeqState → Option (Except ClientError RouterInfoResult × SeqState)
  | 0, _ => none
  | fuel + 1, s =>
    match loop_iter w deadline s with
    | (.done r, s') => some (r, s')
    | (.again, s') => run_fetch w deadline fuel s'

/-- The state at entry of `fetch_router_info`: the shared token cell holds
`token0`, one `Instant::now()` reading (the deadline computation) has been
consumed, no network call has been dispatched, `did_retry` is false. -/
def init_state (token0 : Option String) : SeqState :=
  { token := token0, timeIdx := 1, authCalls := 0, fetchCalls := 0,
    did_retry := false, events := [] }

/-- src/i2pcontrol/client.rs:82-220 `I2pControlClient::fetch_router_info`:
fix `deadline = Instant::now() + overall_timeout` once at entry
(reading index 0 of the oracle), then iterate the loop under the given fuel
(termination within fuel 2 is proved, not assumed). -/
def fetch_router_info (w : World) (token0 : Option String)
    (overall_timeout : Time) (fuel : Nat) :
    Option (Except ClientError RouterInfoResult × SeqState) :=
  run_fetch w (w.times 0 + overall_timeout) fuel (init_state token0)

/-! ## src/i2pcontrol/client.rs — concurrent `authenticate`, singleflight

N concurrent callers of `I2pControlClient::authenticate`
(src/i2pcontrol/client.rs:45-78) over the shared state are modelled by an
interleaving semantics.  Each caller is a task advancing through the atomic
phases of the method body: wait on `auth_lock` (`start`), holding the lock
just before the double-check (`locked`), network `Authenticate` call in
flight while still holding the lock (`inCall`), and returned (`doneAt`).
A schedule (an arbitrary list of task ids) picks which task takes the next
step; network responses are drawn from an oracle indexed by dispatch order,
so theorems quantify over every interleaving and every remote behaviour. -/

/-- The control point a concurrent `authenticate` caller is at. -/
inductive AuthPhase where
  | start
  | locked
  | inCall (callIdx : Nat)
  | doneAt (result : Except ClientError String)
deriving DecidableEq

/-- Whether a task has returned from `authenticate`. -/
def AuthPhase.isDone : AuthPhase → Bool
  | .doneAt _ => true
  | _ => false

/-- The shared state of the client plus the control points of the `n`
concurrent callers: the shared token cell (`self.token`), the holder of
`auth_lock` (if any), each task's phase, and the number of `Authenticate`
network calls dispatched so far. -/
structure AuthSys (n : Nat) where
  token : Option String
  lockHeld : Option (Fin n)
  phase : Fin n → AuthPhase
  netCalls : Nat

/-- One atomic step of task `i` (no-op when the task is blocked on the lock
or already done), with network responses drawn from `resp`:
* `start`: acquire `auth_lock` when free (src/i2pcontrol/client.rs:50);
* `locked`: the double-check of line 53 — when the shared token is present,
  return it immediately, releasing the lock, without any network call;
  otherwise dispatch the `Authenticate` network call (lock still held);
* `inCall k`: the response of the k-th dispatched call arrives — a
  structurally valid response carrying a token stores it into the shared cell
  and returns it, one without a token returns the `AuthenticationFailed`
  error, and an `RpcCallError` is returned boxed; the lock is released on
  every one of these exit paths. -/
def authStep {n : Nat} (resp : Nat → Except RpcCallError AuthResult)
    (s : AuthSys n) (i : Fin n) : AuthSys n :=
  match s.phase i with
  | .start =>
    match s.lockHeld with
    | none =>
      { s with lockHeld := some i
               phase := fun j => if j = i then .locked else s.phase j }
    | some _ => s
  | .locked =>
    match s.token with
    | some t =>
      { s with lockHeld := none
               phase := fun j => if j = i then .doneAt (.ok t) else s.phase j }
    | none =>
      { s with netCalls := s.netCalls + 1
               phase := fun j => if j = i then .inCall s.netCalls else s.phase j }
  | .inCall k =>
    match resp k with
    | .error e =>
      { s with lockHeld := none
               phase := fun j => if j = i then .doneAt (.error (.rpc e)) else s.phase j }
    | .ok r =>
      match r.token with
      | some tok =>
        { s with token := some tok
                 lockHeld := none
                 phase := fun j => if j = i then .doneAt (.ok tok) else s.phase j }
      | none =>
        { s with lockHeld := none
                 phase := fun j => if j = i then .doneAt (.error .authFailedNoToken)
                                   else s.phase j }
  | .doneAt _ => s

/-- Run a schedule (an arbitrary interleaving of task steps). -/
def authRun {n : Nat} (resp : Nat → Except RpcCallError AuthResult)
    (s : AuthSys n) : List (Fin n) → AuthSys n
  | [] => s
  | i :: sched => authRun resp (authStep resp s i) sched

/-- The initial state of N concurrent callers with no cached token: the
shared cell is empty, the lock is free, every task is about to enter
`authenticate`, and no network call has been dispatched. -/
def authInit (n : Nat) : AuthSys n :=
  { token := none, lockHeld := none, phase := fun _ => .start, netCalls := 0 }

/-! ## Auxiliary predicates and concrete stub environments -/

/-- Whether a `RouterInfo` call outcome is a credential-expiry `Rpc` error
(the retry trigger of src/i2pcontrol/client.rs:184-190). -/
def isTokenErrOutcome : Except RpcCallError RouterInfoResult → Bool
  | .error e => is_token_err e
  | .ok _ => false

/-- The property that every network call dispatched so far was given, as its
timeout, a positive remaining time derived from the single deadline `dl` and
one of the oracle's clock readings (never a fresh `now + fixed duration`). -/
def EventsOK (w : World) (dl : Time) (s : SeqState) : Prop :=
  ∀ ev ∈ s.events, ∃ i, ev.timeout = dl - w.times i ∧ 0 < ev.timeout

/-- A stub environment whose server always answers the `RouterInfo` call with
a credential-expiry `Rpc` error (code -32003) and always authenticates
successfully; the clock stands still at 0. -/
def stubTokenErrWorld : World where
  times := fun _ => 0
  authResp := fun _ => .ok ⟨some "tok"⟩
  fetchResp := fun _ => .error (.rpc (-32003) "expired" "RouterInfo")

/-- A stub environment whose server answers the `RouterInfo` call with a
non-credential error (HTTP 500). -/
def stubPlainErrWorld : World where
  times := fun _ => 0
  authResp := fun _ => .ok ⟨some "tok"⟩
  fetchResp := fun _ => .error (.http 500 "RouterInfo" [])

/-- A stub environment whose server answers the first `RouterInfo` call with
a credential-expiry error and the second with a successful snapshot. -/
def stubRetryOkWorld : World where
  times := fun _ => 0
  authResp := fun _ => .ok ⟨some "fresh"⟩
  fetchResp := fun n =>
    if n = 0 then .error (.rpc (-32002) "nonexistent token" "RouterInfo")
    else .ok RouterInfoResult.empty

/-- A stub environment whose server answers the `RouterInfo` call with a
credential-expiry error and then fails authentication at the transport
level. -/
def stubAuthFailWorld : World where
  times := fun _ => 0
  authResp := fun _ => .error (.transport "connection refused")
  fetchResp := fun _ => .error (.rpc (-32004) "expired" "RouterInfo")

/-- A stub environment whose clock jumps past any reasonable deadline right
after the entry reading: reading 0 (the deadline computation) is 0, every
later reading is 1000. -/
def stubLateClockWorld : World where
  times := fun n => if n = 0 then 0 else 1000
  authResp := fun _ => .ok ⟨some "tok"⟩
  fetchResp := fun _ => .ok RouterInfoResult.empty

/-- A stub environment whose clock stands still, authentication succeeds, and
the first `RouterInfo` answer is a credential-expiry error while the clock
reading before the re-authentication (reading index 2) is past the deadline.
Used to exercise the pre-re-authentication deadline check. -/
def stubLateReauthWorld : World where
  times := fun n => if n ≤ 1 then 0 else 1000
  authResp := fun _ => .ok ⟨some "tok"⟩
  fetchResp := fun _ => .error (.rpc (-32003) "expired" "RouterInfo")

/-- The always-successful `Authenticate` response oracle of the singleflight
stub server. -/
def stubAuthRespOk : Nat → Except RpcCallError AuthResult :=
  fun _ => .ok ⟨some "tok"⟩

/-- A concrete interleaving of two concurrent `authenticate` callers: task 0
acquires the lock, double-checks, dispatches and completes the network call;
task 1 then acquires the lock and double-checks. -/
def sched2 : List (Fin 2) := [0, 0, 0, 1, 1]

/-- Lock discipline of the concurrent `authenticate` model: a task at the
double-check (`locked`) or with a network call in flight (`inCall`) holds
`auth_lock`, and an in-flight call's index is the last dispatched one. -/
def LockInv {n : Nat} (s : AuthSys n) : Prop :=
  (∀ i : Fin n, s.phase i = .locked → s.lockHeld = some i) ∧
  (∀ (i : Fin n) (k : Nat), s.phase i = .inCall k →
    s.lockHeld = some i ∧ k + 1 = s.netCalls)

/-- The singleflight invariant, maintained when every network response is a
success carrying a token: at most one network call is ever dispatched; while
the token cell is empty either nothing was dispatched or a call is in
flight; a returned task implies a cached token; and a cached token implies a
dispatched call. -/
def SingleInv {n : Nat} (s : AuthSys n) : Prop :=
  LockInv s ∧
  s.netCalls ≤ 1 ∧
  (s.token = none → s.netCalls = 0 ∨ ∃ (i : Fin n) (k : Nat), s.phase i = .inCall k) ∧
  (∀ (i : Fin n) (r : Except ClientError String), s.phase i = .doneAt r →
    s.token.isSome = true) ∧
  (s.token.isSome = true → 1 ≤ s.netCalls)

/-! ## Theorems -/

/-- C3: `effective_timeout` computes exactly as specified: a missing,
unparseable or non-finite hint yields `none`; a finite hint above 3 s has
0.5 s subtracted while a hint of at most 3 s is used unchanged, and the result
is clamped below by 0.1 s and then above by the ceiling; in particular
(None, 60) ↦ none, (3.1, 60) ↦ 2.6, (30, 10) ↦ 10, (0.2, 60) ↦ 0.2,
(-5, 60) ↦ 0.1 and (non-numeric, 60) ↦ none. -/
theorem effective_timeout_exact :
    (∀ c : Time, effective_timeout .missing c = none) ∧
    (∀ c : Time, effective_timeout .nonNumeric c = none) ∧
    (∀ c : Time, effective_timeout .nonFinite c = none) ∧
    (∀ q c : Time, 3 < q →
      effective_timeout (.finite q) c = some (min (max (q - 1/2) (1/10)) c)) ∧
    (∀ q c : Time, q ≤ 3 →
      effective_timeout (.finite q) c = some (min (max q (1/10)) c)) ∧
    effective_timeout .missing 60 = none ∧
    effective_timeout (.finite (31/10)) 60 = some (13/5) ∧
    effective_timeout (.finite 30) 10 = some 10 ∧
    effective_timeout (.finite (1/5)) 60 = some (1/5) ∧
    effective_timeout (.finite (-5)) 60 = some (1/10) ∧
    effective_timeout .nonNumeric 60 = none := by
  refine ⟨fun _ => rfl, fun _ => rfl, fun _ => rfl, ?_, ?_, rfl, ?_, ?_, ?_, ?_, rfl⟩
  · intro q c hq
    simp [effective_timeout, parse_scrape_header, MARGIN, MARGIN_THRESHOLD, if_pos hq]
  · intro q c hq
    simp [effective_timeout, parse_scrape_header, MARGIN, MARGIN_THRESHOLD,
      if_neg (not_lt.mpr hq)]
  · norm_num [effective_timeout, parse_scrape_header, MARGIN, MARGIN_THRESHOLD]
  · norm_num [effective_timeout, parse_scrape_header, MARGIN, MARGIN_THRESHOLD]
  · norm_num [effective_timeout, parse_scrape_header, MARGIN, MARGIN_THRESHOLD]
  · norm_num [effective_timeout, parse_scrape_header, MARGIN, MARGIN_THRESHOLD]

/-- Witness for C3 at concrete inputs: hint 4 s (above the threshold) with
ceiling 60 s, and hint 2 s (below the threshold) with ceiling 60 s. -/
theorem effective_timeout_exact_witness :
    effective_timeout (.finite 4) 60 = some (min (max ((4:ℚ) - 1/2) (1/10)) 60) ∧
    effective_timeout (.finite 2) 60 = some (min (max (2:ℚ) (1/10)) 60) :=
  ⟨effective_timeout_exact.2.2.2.1 4 60 (by norm_num),
   effective_timeout_exact.2.2.2.2.1 2 60 (by norm_num)⟩

/-- C7 counterexample: the ceiling is clamped after the floor, so with the
legal ceiling `Duration::from_secs(0)` and hint 5 s the resolver returns
`some 0` — a zero budget, neither positive nor at least 0.1 s. -/
theorem effective_timeout_floor_cex :
    effective_timeout (.finite 5) 0 = some 0 ∧
    ¬ ((1/10 : ℚ) ≤ 0 ∧ (0:ℚ) < 0) := by
  constructor
  · norm_num [effective_timeout, parse_scrape_header, MARGIN, MARGIN_THRESHOLD]
  · norm_num

/-- C7 amended: whenever the resolver returns `some d`, `d` is at least
`min 0.1 ceiling`; in particular, whenever the ceiling is at least 0.1 s
(true of every configuration of at least one second), `d` is at least 0.1 s
and strictly positive. -/
theorem effective_timeout_floor :
    ∀ (h : ScrapeHeader) (c d : Time), effective_timeout h c = some d →
      min (1/10) c ≤ d ∧ ((1/10 : ℚ) ≤ c → (1/10 : ℚ) ≤ d ∧ 0 < d) := by
  intro h c d hd
  cases h with
  | missing => simp [effective_timeout, parse_scrape_header] at hd
  | nonNumeric => simp [effective_timeout, parse_scrape_header] at hd
  | nonFinite => simp [effective_timeout, parse_scrape_header] at hd
  | finite q =>
    simp only [effective_timeout, parse_scrape_header] at hd
    obtain rfl : min (max (if MARGIN_THRESHOLD < q then q - MARGIN else q) (1/10)) c = d := by
      simpa using hd
    constructor
    · exact min_le_min (le_max_right _ _) le_rfl
    · intro hc
      have h1 : (1/10 : ℚ) ≤ min (max (if MARGIN_THRESHOLD < q then q - MARGIN else q) (1/10)) c :=
        le_min (le_max_right _ _) hc
      exact ⟨h1, lt_of_lt_of_le (by norm_num) h1⟩

/-- Witness for the amended C7: hint 2 s, ceiling 60 s. -/
theorem effective_timeout_floor_witness :
    min (1/10 : ℚ) 60 ≤ 2 ∧ ((1/10 : ℚ) ≤ 60 → (1/10 : ℚ) ≤ 2 ∧ (0:ℚ) < 2) :=
  effective_timeout_floor (.finite 2) 60 2
    (by norm_num [effective_timeout, parse_scrape_header, MARGIN, MARGIN_THRESHOLD])

/-- C9: `merge_from` acts field-by-field and independently: every one of the
28 fields of the result takes `other`'s value when present and keeps `self`'s
value otherwise (`Option.or other.f self.f`); in particular merging
A (uptime=5, inbound absent) with B (uptime absent, inbound=7) yields
(uptime=5, inbound=7), and merging A with C (uptime=9) yields
(uptime=9, inbound absent). -/
theorem merge_from_fieldwise :
    (∀ a b : RouterInfoResult,
      (a.merge_from b).router_status = b.router_status.or a.router_status ∧
      (a.merge_from b).router_version = b.router_version.or a.router_version ∧
      (a.merge_from b).router_uptime = b.router_uptime.or a.router_uptime ∧
      (a.merge_from b).bw_inbound_1s = b.bw_inbound_1s.or a.bw_inbound_1s ∧
      (a.merge_from b).bw_inbound_15s = b.bw_inbound_15s.or a.bw_inbound_15s ∧
      (a.merge_from b).bw_outbound_1s = b.bw_outbound_1s.or a.bw_outbound_1s ∧
      (a.merge_from b).bw_outbound_15s = b.bw_outbound_15s.or a.bw_outbound_15s ∧
      (a.merge_from b).bw_transit_15s = b.bw_transit_15s.or a.bw_transit_15s ∧
      (a.merge_from b).net_status = b.net_status.or a.net_status ∧
      (a.merge_from b).net_status_v6 = b.net_status_v6.or a.net_status_v6 ∧
      (a.merge_from b).net_error = b.net_error.or a.net_error ∧
      (a.merge_from b).net_error_v6 = b.net_error_v6.or a.net_error_v6 ∧
      (a.merge_from b).net_testing = b.net_testing.or a.net_testing ∧
      (a.merge_from b).net_testing_v6 = b.net_testing_v6.or a.net_testing_v6 ∧
      (a.merge_from b).tunnels_participating
        = b.tunnels_participating.or a.tunnels_participating ∧
      (a.merge_from b).tunnels_inbound = b.tunnels_inbound.or a.tunnels_inbound ∧
      (a.merge_from b).tunnels_outbound = b.tunnels_outbound.or a.tunnels_outbound ∧
      (a.merge_from b).tunnels_successrate
        = b.tunnels_successrate.or a.tunnels_successrate ∧
      (a.merge_from b).tunnels_total_successrate
        = b.tunnels_total_successrate.or a.tunnels_total_successrate ∧
      (a.merge_from b).tunnels_queue = b.tunnels_queue.or a.tunnels_queue ∧
      (a.merge_from b).tunnels_tbmqueue = b.tunnels_tbmqueue.or a.tunnels_tbmqueue ∧
      (a.merge_from b).netdb_activepeers
        = b.netdb_activepeers.or a.netdb_activepeers ∧
      (a.merge_from b).netdb_knownpeers = b.netdb_knownpeers.or a.netdb_knownpeers ∧
      (a.merge_from b).netdb_floodfills = b.netdb_floodfills.or a.netdb_floodfills ∧
      (a.merge_from b).netdb_leasesets = b.netdb_leasesets.or a.netdb_leasesets ∧
      (a.merge_from b).net_total_received_bytes
        = b.net_total_received_bytes.or a.net_total_received_bytes ∧
      (a.merge_from b).net_total_sent_bytes
        = b.net_total_sent_bytes.or a.net_total_sent_bytes ∧
      (a.merge_from b).net_transit_sent_bytes
        = b.net_transit_sent_bytes.or a.net_transit_sent_bytes) ∧
    (({ RouterInfoResult.empty with router_uptime := some 5 }.merge_from
        { RouterInfoResult.empty with tunnels_inbound := some 7 }).router_uptime
          = some 5 ∧
     ({ RouterInfoResult.empty with router_uptime := some 5 }.merge_from
        { RouterInfoResult.empty with tunnels_inbound := some 7 }).tunnels_inbound
          = some 7) ∧
    (({ RouterInfoResult.empty with router_uptime := some 5 }.merge_from
        { RouterInfoResult.empty with router_uptime := some 9 }).router_uptime
          = some 9 ∧
     ({ RouterInfoResult.empty with router_uptime := some 5 }.merge_from
        { RouterInfoResult.empty with router_uptime := some 9 }).tunnels_inbound
          = none) := by
  refine ⟨fun a b => ?_, ⟨rfl, rfl⟩, ⟨rfl, rfl⟩⟩
  rcases b with ⟨b1, b2, b3, b4, b5, b6, b7, b8, b9, b10, b11, b12, b13, b14,
    b15, b16, b17, b18, b19, b20, b21, b22, b23, b24, b25, b26, b27, b28⟩
  refine ⟨?_, ?_, ?_, ?_, ?_, ?_, ?_, ?_, ?_, ?_, ?_, ?_, ?_, ?_, ?_, ?_, ?_,
    ?_, ?_, ?_, ?_, ?_, ?_, ?_, ?_, ?_, ?_, ?_⟩ <;>
  first
    | (cases b1 <;> rfl) | (cases b2 <;> rfl) | (cases b3 <;> rfl)
    | (cases b4 <;> rfl) | (cases b5 <;> rfl) | (cases b6 <;> rfl)
    | (cases b7 <;> rfl) | (cases b8 <;> rfl) | (cases b9 <;> rfl)
    | (cases b10 <;> rfl) | (cases b11 <;> rfl) | (cases b12 <;> rfl)
    | (cases b13 <;> rfl) | (cases b14 <;> rfl) | (cases b15 <;> rfl)
    | (cases b16 <;> rfl) | (cases b17 <;> rfl) | (cases b18 <;> rfl)
    | (cases b19 <;> rfl) | (cases b20 <;> rfl) | (cases b21 <;> rfl)
    | (cases b22 <;> rfl) | (cases b23 <;> rfl) | (cases b24 <;> rfl)
    | (cases b25 <;> rfl) | (cases b26 <;> rfl) | (cases b27 <;> rfl)
    | (cases b28 <;> rfl)

/-- C6 counterexample: a 2xx body carrying BOTH a decodable `result` member
and an `error` member does not yield a Decode failure — the untagged decoder
tries the `Ok { result }` variant first and ignores the unknown `error`
member, so the call yields the success branch. -/
theorem rpc_parse_both_keys_cex :
    rpc_call_parse_response "RouterInfo" []
        (.obj (some RouterInfoResult.empty) (some ⟨-32003, "x"⟩))
      = .ok RouterInfoResult.empty ∧
    isDecodeFailure (rpc_call_parse_response "RouterInfo" []
        (.obj (some RouterInfoResult.empty) (some ⟨-32003, "x"⟩)))
      = false :=
  ⟨rfl, rfl⟩

/-- C6 amended: for every 2xx body, a body whose `result` member decodes
yields the success branch with the typed result (even when an `error` member
is also present — the untagged decoder ignores it); a body with only an
`error` member yields the `Rpc` branch carrying that error's code and
message; a body with neither member, or one that is not an object, is a
`Decode` failure. -/
theorem rpc_parse_envelope :
    (∀ (method : String) (text : List Char) (r : RouterInfoResult)
        (e : Option RpcErrorM),
      rpc_call_parse_response method text (.obj (some r) e) = .ok r) ∧
    (∀ (method : String) (text : List Char) (e : RpcErrorM),
      rpc_call_parse_response (T := RouterInfoResult) method text
          (.obj none (some e))
        = .error (.rpc e.code e.message method)) ∧
    (∀ (method : String) (text : List Char),
      isDecodeFailure (rpc_call_parse_response (T := RouterInfoResult)
        method text (.obj none none)) = true) ∧
    (∀ (method : String) (text : List Char),
      isDecodeFailure (rpc_call_parse_response (T := RouterInfoResult)
        method text .notObject) = true) :=
  ⟨fun _ _ _ _ => rfl, fun _ _ _ => rfl, fun _ _ => rfl, fun _ _ => rfl⟩

/-- The UTF-8 encoding of a concatenation is the concatenation of the
encodings (so truncating by whole characters never splits an encoded
character's bytes). -/
theorem utf8Encode_append (l1 l2 : List Char) :
    utf8Encode (l1 ++ l2) = utf8Encode l1 ++ utf8Encode l2 := by
  induction l1 with
  | nil => simp [utf8Encode]
  | cons c l ih =>
    simp only [utf8Encode, List.cons_append, List.flatMap] at ih ⊢
    simp_all

/-- C8: on the authentication method, the body snippet embedded in `Http` and
`Decode` errors is the fixed `"<omitted>"` placeholder whatever the response
body is; on every other method it is exactly the body truncated to its first
2048 characters — hence at most 2048 characters long, a character-level
prefix of the body, and its UTF-8 byte sequence is a prefix of the body's
UTF-8 byte sequence (no multi-byte character is ever split). -/
theorem snippet_redaction :
    (∀ body : List Char, http_body_snippet "Authenticate" body = omittedSnippet) ∧
    (∀ body : List Char, decode_body_snippet "Authenticate" body = omittedSnippet) ∧
    (∀ (method : String) (body : List Char), method ≠ "Authenticate" →
      http_body_snippet method body = body.take 2048 ∧
      decode_body_snippet method body = body.take 2048 ∧
      (http_body_snippet method body).length ≤ 2048 ∧
      (∃ rest, http_body_snippet method body ++ rest = body) ∧
      (∃ rest, utf8Encode (http_body_snippet method body) ++ rest
        = utf8Encode body)) := by
  refine ⟨fun _ => by simp [http_body_snippet],
    fun _ => by simp [decode_body_snippet], fun method body hm => ?_⟩
  have htake : http_body_snippet method body = body.take 2048 := by
    by_cases hlen : 2048 < body.length
    · simp [http_body_snippet, hm, hlen, truncate_chars, not_le.mpr hlen]
    · simp [http_body_snippet, hm, hlen,
        List.take_of_length_le (le_of_not_lt hlen)]
  have htake' : decode_body_snippet method body = body.take 2048 := by
    by_cases hlen : 2048 < body.length
    · simp [decode_body_snippet, hm, hlen, truncate_chars, not_le.mpr hlen]
    · simp [decode_body_snippet, hm, hlen,
        List.take_of_length_le (le_of_not_lt hlen)]
  refine ⟨htake, htake', ?_, ⟨body.drop 2048, ?_⟩, ⟨utf8Encode (body.drop 2048), ?_⟩⟩
  · rw [htake]
    exact List.length_take_le 2048 body
  · rw [htake]
    exact List.take_append_drop 2048 body
  · rw [htake, ← utf8Encode_append, List.take_append_drop]

/-- Witness for C8 at a concrete non-authentication method and a concrete
body. -/
theorem snippet_redaction_witness :
    http_body_snippet "RouterInfo" ['a', 'b'] = ['a', 'b'].take 2048 ∧
    decode_body_snippet "RouterInfo" ['a', 'b'] = ['a', 'b'].take 2048 ∧
    (http_body_snippet "RouterInfo" ['a', 'b']).length ≤ 2048 ∧
    (∃ rest, http_body_snippet "RouterInfo" ['a', 'b'] ++ rest = ['a', 'b']) ∧
    (∃ rest, utf8Encode (http_body_snippet "RouterInfo" ['a', 'b']) ++ rest
      = utf8Encode ['a', 'b']) :=
  snippet_redaction.2.2 "RouterInfo" ['a', 'b'] (by decide)

/-- C10: whenever `authenticate` returns an error — boxed transport / HTTP /
RPC / decode failure or the missing-token authentication failure — the shared
token cell is left exactly as it was; the cell is written only on the success
path, and then only after a structurally valid response carrying the token
field (and only when no token was cached, i.e. past the double-check). -/
theorem authenticate_token_on_error :
    ∀ (w : World) (t : Time) (s : SeqState) (r : Except ClientError String)
      (s' : SeqState), authenticate w t s = (r, s') →
      ((∃ e, r = .error e) → s'.token = s.token) ∧
      (s'.token ≠ s.token →
        ∃ tok, r = .ok tok ∧ s'.token = some tok ∧
          w.authResp s.authCalls = .ok ⟨some tok⟩ ∧ s.token = none) := by
  intro w t s r s' h
  cases htok : s.token with
  | some existing =>
    simp only [authenticate, htok, Prod.mk.injEq] at h
    obtain ⟨rfl, rfl⟩ := h
    exact ⟨fun _ => htok, fun hne => absurd htok hne⟩
  | none =>
    cases hresp : w.authResp s.authCalls with
    | error e =>
      simp only [authenticate, htok, hresp, Prod.mk.injEq] at h
      obtain ⟨rfl, rfl⟩ := h
      exact ⟨fun _ => rfl, by simp⟩
    | ok a =>
      obtain ⟨atok⟩ := a
      cases atok with
      | some tok =>
        simp only [authenticate, htok, hresp, Prod.mk.injEq] at h
        obtain ⟨rfl, rfl⟩ := h
        exact ⟨by simp, fun _ => ⟨tok, rfl, rfl, rfl, rfl⟩⟩
      | none =>
        simp only [authenticate, htok, hresp, Prod.mk.injEq] at h
        obtain ⟨rfl, rfl⟩ := h
        exact ⟨fun _ => rfl, by simp⟩

/-- Witness for C10: concrete state with no cached token against an
environment whose authentication fails at the transport level. -/
theorem authenticate_token_on_error_witness :
    ((∃ e, (authenticate stubAuthFailWorld 1 (init_state none)).1 = .error e) →
      (authenticate stubAuthFailWorld 1 (init_state none)).2.token
        = (init_state none).token) ∧
    ((authenticate stubAuthFailWorld 1 (init_state none)).2.token
        ≠ (init_state none).token →
      ∃ tok, (authenticate stubAuthFailWorld 1 (init_state none)).1 = .ok tok ∧
        (authenticate stubAuthFailWorld 1 (init_state none)).2.token = some tok ∧
        stubAuthFailWorld.authResp (init_state none).authCalls = .ok ⟨some tok⟩ ∧
        (init_state none).token = none) :=
  authenticate_token_on_error stubAuthFailWorld 1 (init_state none) _ _ rfl

/-- Structural facts about one (sequential) `authenticate` call: it dispatches
at most one `Authenticate` network call, touches neither the `RouterInfo`
counter nor the clock nor the retry flag, returns exactly the token it leaves
in the shared cell, and — when its timeout argument is a positive remainder
derived from the deadline — preserves the deadline-discipline of the event
log. -/
theorem authenticate_shape (w : World) (dl t : Time) (s : SeqState)
    (ar : Except ClientError String) (s4 : SeqState)
    (h : authenticate w t s = (ar, s4)) :
    s4.authCalls ≤ s.authCalls + 1 ∧
    s4.fetchCalls = s.fetchCalls ∧
    s4.timeIdx = s.timeIdx ∧
    s4.did_retry = s.did_retry ∧
    (∀ tok, ar = .ok tok → s4.token = some tok) ∧
    (EventsOK w dl s → (∃ i, t = dl - w.times i ∧ 0 < t) → EventsOK w dl s4) := by
  have hApp : ∀ s' : SeqState, s'.events = s.events ++ [Event.authCall t] →
      EventsOK w dl s → (∃ i, t = dl - w.times i ∧ 0 < t) → EventsOK w dl s' := by
    intro s' hev hE hT ev hmem
    rw [hev] at hmem
    rcases List.mem_append.mp hmem with hm | hm
    · exact hE ev hm
    · obtain ⟨i, hi, hpos⟩ := hT
      simp only [List.mem_singleton] at hm
      subst hm
      exact ⟨i, hi, hpos⟩
  cases htok : s.token with
  | some existing =>
    simp only [authenticate, htok, Prod.mk.injEq] at h
    obtain ⟨rfl, rfl⟩ := h
    refine ⟨by omega, rfl, rfl, rfl, ?_, fun hE _ => hE⟩
    intro tok hok
    cases hok
    exact htok
  | none =>
    cases hresp : w.authResp s.authCalls with
    | error e =>
      simp only [authenticate, htok, hresp, Prod.mk.injEq] at h
      obtain ⟨rfl, rfl⟩ := h
      exact ⟨by simp, rfl, rfl, rfl, by simp, hApp _ rfl⟩
    | ok a =>
      obtain ⟨atok⟩ := a
      cases atok with
      | some tok =>
        simp only [authenticate, htok, hresp, Prod.mk.injEq] at h
        obtain ⟨rfl, rfl⟩ := h
        refine ⟨by simp, rfl, rfl, rfl, ?_, hApp _ rfl⟩
        intro tok' hok
        cases hok
        rfl
      | none =>
        simp only [authenticate, htok, hresp, Prod.mk.injEq] at h
        obtain ⟨rfl, rfl⟩ := h
        exact ⟨by simp, rfl, rfl, rfl, by simp, hApp _ rfl⟩

/-- A nonzero remaining time is exactly `deadline - now` and is positive. -/
theorem remaining_at_ne_zero_facts {dl now : Time}
    (h : remaining_at dl now ≠ 0) :
    remaining_at dl now = dl - now ∧ 0 < remaining_at dl now := by
  unfold remaining_at at *
  by_cases hle : dl ≤ now
  · simp [hle] at h
  · rw [if_neg hle] at *
    exact ⟨rfl, sub_pos.mpr (not_le.mp hle)⟩

/-- Appending one deadline-derived positive-timeout event preserves the
deadline discipline of the event log. -/
theorem eventsOK_append (w : World) (dl : Time) (s s' : SeqState) (ev : Event)
    (hev : s'.events = s.events ++ [ev]) (hE : EventsOK w dl s)
    (hT : ∃ i, ev.timeout = dl - w.times i ∧ 0 < ev.timeout) :
    EventsOK w dl s' := by
  intro e hmem
  rw [hev] at hmem
  rcases List.mem_append.mp hmem with hm | hm
  · exact hE e hm
  · simp only [List.mem_singleton] at hm
    subst hm
    exact hT

/-- Structural facts about the post-token part of one loop iteration: the
`RouterInfo` counter grows by at most one and the `Authenticate` counter by
at most one; `continue` (`again`) happens only from a first attempt and
leaves the retry flag set and a token in the shared cell; once the retry
flag is set no `continue` and no authentication can happen; a successful
return carries a snapshot delivered by some `RouterInfo` response; and the
deadline discipline of the event log is preserved. -/
theorem after_token_shape (w : World) (dl : Time) (tok : String)
    (s : SeqState) (o : IterOut) (s2 : SeqState)
    (h : after_token w dl tok s = (o, s2)) :
    s2.fetchCalls ≤ s.fetchCalls + 1 ∧
    s2.authCalls ≤ s.authCalls + 1 ∧
    (o = .again → s.did_retry = false ∧ s2.did_retry = true ∧
      s2.token.isSome = true) ∧
    (s.did_retry = true → o ≠ .again ∧ s2.authCalls = s.authCalls) ∧
    (∀ d, o = .done (.ok d) → ∃ n, w.fetchResp n = .ok d) ∧
    (EventsOK w dl s → EventsOK w dl s2) := by
  simp only [after_token, read_now] at h
  by_cases hz1 : remaining_at dl (w.times s.timeIdx) = 0
  · rw [if_pos hz1] at h
    simp only [Prod.mk.injEq] at h
    obtain ⟨rfl, rfl⟩ := h
    exact ⟨by simp, by simp, by simp, fun _ => ⟨by simp, rfl⟩, by simp,
      fun hE => hE⟩
  · rw [if_neg hz1] at h
    obtain ⟨hrem, hpos⟩ := remaining_at_ne_zero_facts hz1
    cases hf : w.fetchResp s.fetchCalls with
    | ok data =>
      simp only [hf, Prod.mk.injEq] at h
      obtain ⟨rfl, rfl⟩ := h
      refine ⟨by simp, by simp, by simp, fun _ => ⟨by simp, rfl⟩, ?_, ?_⟩
      · intro d hd
        obtain rfl : data = d := by simpa using hd
        exact ⟨s.fetchCalls, hf⟩
      · intro hE
        exact eventsOK_append w dl s _ _ rfl hE
          ⟨s.timeIdx, by simpa [Event.timeout] using hrem, by simpa using hpos⟩
    | error err =>
      cases hb : (is_token_err err && !s.did_retry) with
      | false =>
        simp only [hf, hb, Bool.false_eq_true, if_false, Prod.mk.injEq] at h
        obtain ⟨rfl, rfl⟩ := h
        refine ⟨by simp, by simp, by simp, fun _ => ⟨by simp, rfl⟩, by simp, ?_⟩
        intro hE
        exact eventsOK_append w dl s _ _ rfl hE
          ⟨s.timeIdx, by simpa [Event.timeout] using hrem, by simpa using hpos⟩
      | true =>
        obtain ⟨hterr, hdr⟩ := Bool.and_eq_true_iff.mp hb
        have hdrf : s.did_retry = false := by
          cases hdd : s.did_retry
          · rfl
          · rw [hdd] at hdr
            cases hdr
        by_cases hz2 : remaining_at dl (w.times (s.timeIdx + 1)) = 0
        · simp only [hf, hb, if_true, hz2, if_pos, Prod.mk.injEq] at h
          obtain ⟨rfl, rfl⟩ := h
          refine ⟨by simp, by simp, by simp, ?_, by simp, ?_⟩
          · intro hdt
            rw [hdt] at hdrf
            cases hdrf
          · intro hE
            exact eventsOK_append w dl s _ _ rfl hE
              ⟨s.timeIdx, by simpa [Event.timeout] using hrem, by simpa using hpos⟩
        · obtain ⟨hrem2, hpos2⟩ := remaining_at_ne_zero_facts hz2
          rcases hauth : authenticate w (remaining_at dl (w.times (s.timeIdx + 1)))
              { token := none, timeIdx := s.timeIdx + 1 + 1,
                authCalls := s.authCalls, fetchCalls := s.fetchCalls + 1,
                did_retry := s.did_retry,
                events := s.events
                  ++ [Event.fetchCall (remaining_at dl (w.times s.timeIdx))] }
            with ⟨ar, s5⟩
          obtain ⟨ha1, ha2, ha3, ha4, ha5, ha6⟩ :=
            authenticate_shape w dl _ _ ar s5 hauth
          have hb1 : s5.authCalls ≤ s.authCalls + 1 := by simpa using ha1
          have hb2 : s5.fetchCalls = s.fetchCalls + 1 := by simpa using ha2
          have hb4 : s5.did_retry = s.did_retry := by simpa using ha4
          have hEpre : EventsOK w dl s → EventsOK w dl s5 := by
            intro hE
            refine ha6 ?_ ⟨s.timeIdx + 1, by simpa using hrem2, by simpa using hpos2⟩
            exact eventsOK_append w dl s _ _ rfl hE
              ⟨s.timeIdx, by simpa [Event.timeout] using hrem, by simpa using hpos⟩
          cases ar with
          | error e =>
            simp only [hf, hb, if_true, if_neg hz2, hauth, Prod.mk.injEq] at h
            obtain ⟨rfl, rfl⟩ := h
            refine ⟨by omega, by omega, by simp, ?_, by simp, hEpre⟩
            intro hdt
            rw [hdt] at hdrf
            cases hdrf
          | ok tk =>
            simp only [hf, hb, if_true, if_neg hz2, hauth, Prod.mk.injEq] at h
            obtain ⟨rfl, rfl⟩ := h
            refine ⟨by simp; omega, by simp; omega, ?_, ?_, by simp, hEpre⟩
            · intro _
              refine ⟨hdrf, rfl, ?_⟩
              have := ha5 tk rfl
              simp [this]
            · intro hdt
              rw [hdt] at hdrf
              cases hdrf

/-- Structural facts about one full loop iteration: at most one `RouterInfo`
and at most two `Authenticate` dispatches; `continue` only from a first
attempt, leaving the retry flag set and a token cached; from a retried state
with a cached token the iteration always returns and dispatches no
authentication; a successful return carries a snapshot delivered by some
`RouterInfo` response; the event-log deadline discipline is preserved. -/
theorem loop_iter_shape (w : World) (dl : Time) (s : SeqState) (o : IterOut)
    (s2 : SeqState) (h : loop_iter w dl s = (o, s2)) :
    s2.fetchCalls ≤ s.fetchCalls + 1 ∧
    s2.authCalls ≤ s.authCalls + 2 ∧
    (o = .again → s.did_retry = false ∧ s2.did_retry = true ∧
      s2.token.isSome = true) ∧
    (s.did_retry = true → s.token.isSome = true →
      o ≠ .again ∧ s2.authCalls = s.authCalls ∧
      s2.fetchCalls ≤ s.fetchCalls + 1) ∧
    (∀ d, o = .done (.ok d) → ∃ n, w.fetchResp n = .ok d) ∧
    (EventsOK w dl s → EventsOK w dl s2) := by
  cases htok : s.token with
  | some tok =>
    simp only [loop_iter, htok] at h
    obtain ⟨hc1, hc2, hc3, hc4, hc5, hc6⟩ := after_token_shape w dl tok s o s2 h
    exact ⟨hc1, by omega, hc3, fun hdt _ => ⟨(hc4 hdt).1, (hc4 hdt).2, hc1⟩,
      hc5, hc6⟩
  | none =>
    simp only [loop_iter, htok, read_now] at h
    by_cases hz1 : remaining_at dl (w.times s.timeIdx) = 0
    · rw [if_pos hz1] at h
      simp only [Prod.mk.injEq] at h
      obtain ⟨rfl, rfl⟩ := h
      exact ⟨by simp, by simp, by simp, fun _ h2 => by simp at h2,
        by simp, fun hE => hE⟩
    · rw [if_neg hz1] at h
      obtain ⟨hrem, hpos⟩ := remaining_at_ne_zero_facts hz1
      rcases hauth : authenticate w (remaining_at dl (w.times s.timeIdx))
          { token := none, timeIdx := s.timeIdx + 1, authCalls := s.authCalls,
            fetchCalls := s.fetchCalls, did_retry := s.did_retry,
            events := s.events }
        with ⟨ar, s5⟩
      obtain ⟨ha1, ha2, ha3, ha4, ha5, ha6⟩ :=
        authenticate_shape w dl _ _ ar s5 hauth
      have hb1 : s5.authCalls ≤ s.authCalls + 1 := by simpa using ha1
      have hb2 : s5.fetchCalls = s.fetchCalls := by simpa using ha2
      have hb4 : s5.did_retry = s.did_retry := by simpa using ha4
      have hEpre : EventsOK w dl s → EventsOK w dl s5 := by
        intro hE
        refine ha6 ?_ ⟨s.timeIdx, by simpa using hrem, by simpa using hpos⟩
        intro ev hmem
        exact hE ev hmem
      cases ar with
      | error e =>
        simp only [hauth] at h
        simp only [Prod.mk.injEq] at h
        obtain ⟨rfl, rfl⟩ := h
        refine ⟨by omega, by omega, by simp, fun _ h2 => ?_, by simp, hEpre⟩
        simp at h2
      | ok tk =>
        simp only [hauth] at h
        obtain ⟨hc1, hc2, hc3, hc4, hc5, hc6⟩ :=
          after_token_shape w dl tk s5 o s2 h
        refine ⟨by omega, by omega, ?_, fun _ h2 => ?_, hc5,
          fun hE => hc6 (hEpre hE)⟩
        · intro hagain
          obtain ⟨hd1, hd2, hd3⟩ := hc3 hagain
          refine ⟨?_, hd2, hd3⟩
          rw [hb4] at hd1
          exact hd1
        · simp at h2

/-- C1: every external `fetch_router_info` call terminates within two loop
iterations whatever the remote behaviour and timing — any fuel of at least 2
yields the same returned result — and the final state records at most 2
`RouterInfo` dispatches and at most 2 `Authenticate` dispatches; moreover,
against a server that always answers the status fetch with a
credential-expiry `Rpc` error, the returned value is an error. -/
theorem fetch_router_info_bounded :
    ∀ (w : World) (token0 : Option String) (T : Time) (fuel : Nat),
      2 ≤ fuel →
      ∃ r s2, fetch_router_info w token0 T fuel = some (r, s2) ∧
        fetch_router_info w token0 T 2 = some (r, s2) ∧
        s2.fetchCalls ≤ 2 ∧ s2.authCalls ≤ 2 ∧
        ((∀ n, isTokenErrOutcome (w.fetchResp n) = true) →
          ∃ e, r = .error e) := by
  intro w token0 T fuel hfuel
  obtain ⟨k, rfl⟩ : ∃ k, fuel = k + 2 := ⟨fuel - 2, by omega⟩
  set dl := w.times 0 + T with hdl
  rcases hi1 : loop_iter w dl (init_state token0) with ⟨o1, s1⟩
  obtain ⟨hs1f, hs1a, hs1again, _, hs1ok, _⟩ :=
    loop_iter_shape w dl (init_state token0) o1 s1 hi1
  have hif : (init_state token0).fetchCalls = 0 := rfl
  have hia : (init_state token0).authCalls = 0 := rfl
  rw [hif] at hs1f
  rw [hia] at hs1a
  cases o1 with
  | done r =>
    refine ⟨r, s1, ?_, ?_, by omega, by omega, ?_⟩
    · simp only [fetch_router_info, run_fetch, hi1]
    · simp only [fetch_router_info, run_fetch, hi1]
    · intro hTE
      cases r with
      | ok d =>
        obtain ⟨n, hn⟩ := hs1ok d rfl
        have := hTE n
        rw [hn] at this
        simp [isTokenErrOutcome] at this
      | error e => exact ⟨e, rfl⟩
  | again =>
    obtain ⟨hdr0, hdr1, htok1⟩ := hs1again rfl
    rcases hi2 : loop_iter w dl s1 with ⟨o2, s2⟩
    obtain ⟨_, _, _, hretr, hs2ok, _⟩ := loop_iter_shape w dl s1 o2 s2 hi2
    obtain ⟨hno, hs2a, hs2f⟩ := hretr hdr1 htok1
    cases o2 with
    | again => exact absurd rfl hno
    | done r =>
      refine ⟨r, s2, ?_, ?_, by omega, by omega, ?_⟩
      · simp only [fetch_router_info, run_fetch, hi1, hi2]
      · simp only [fetch_router_info, run_fetch, hi1, hi2]
      · intro hTE
        cases r with
        | ok d =>
          obtain ⟨n, hn⟩ := hs2ok d rfl
          have := hTE n
          rw [hn] at this
          simp [isTokenErrOutcome] at this
        | error e => exact ⟨e, rfl⟩

/-- Witness for C1: against the stub server that always returns the
credential-expiry error -32003, with a cached token, budget 10 and fuel 2,
the call terminates with an error after exactly 2 status fetches and 1
re-authentication. -/
theorem fetch_router_info_bounded_witness :
    ∃ r s2, fetch_router_info stubTokenErrWorld (some "t0") 10 2 = some (r, s2) ∧
      fetch_router_info stubTokenErrWorld (some "t0") 10 2 = some (r, s2) ∧
      s2.fetchCalls ≤ 2 ∧ s2.authCalls ≤ 2 ∧
      ((∀ n, isTokenErrOutcome (stubTokenErrWorld.fetchResp n) = true) →
        ∃ e, r = .error e) :=
  fetch_router_info_bounded stubTokenErrWorld (some "t0") 10 2 (by omega)

/-- The event-log deadline discipline is preserved by any number of loop
iterations. -/
theorem run_fetch_eventsOK (w : World) (dl : Time) :
    ∀ (fuel : Nat) (s : SeqState) (r : Except ClientError RouterInfoResult)
      (s2 : SeqState), run_fetch w dl fuel s = some (r, s2) →
      EventsOK w dl s → EventsOK w dl s2 := by
  intro fuel
  induction fuel with
  | zero => intro s r s2 h; simp [run_fetch] at h
  | succ k ih =>
    intro s r s2 h hE
    rcases hi : loop_iter w dl s with ⟨o, s1⟩
    obtain ⟨_, _, _, _, _, hEp⟩ := loop_iter_shape w dl s o s1 hi
    simp only [run_fetch, hi] at h
    cases o with
    | done r' =>
      simp only [Option.some.injEq, Prod.mk.injEq] at h
      obtain ⟨rfl, rfl⟩ := h
      exact hEp hE
    | again => exact ih s1 r s2 h (hEp hE)

/-- C5: the absolute deadline is fixed once at entry (`times 0 + budget`) and
every dispatched network call is given, as its timeout, a positive remainder
computed from that same deadline and a clock reading; and whenever no time
remains before a step that needs the network — the initial authentication,
the status RPC, or the re-authentication — the call fails locally with the
corresponding synthetic deadline-exceeded error without dispatching that
call. -/
theorem fetch_deadline_discipline :
    (∀ (w : World) (token0 : Option String) (T : Time) (fuel : Nat)
       (r : Except ClientError RouterInfoResult) (s2 : SeqState),
       fetch_router_info w token0 T fuel = some (r, s2) →
       EventsOK w (w.times 0 + T) s2) ∧
    (∀ (w : World) (T : Time),
       remaining_at (w.times 0 + T) (w.times 1) = 0 →
       ∀ fuel : Nat, 1 ≤ fuel →
       ∃ s2, fetch_router_info w none T fuel
           = some (.error .deadlineBeforeAuth, s2) ∧
         s2.events = [] ∧ s2.authCalls = 0 ∧ s2.fetchCalls = 0) ∧
    (∀ (w : World) (tok : String) (T : Time),
       remaining_at (w.times 0 + T) (w.times 1) = 0 →
       ∀ fuel : Nat, 1 ≤ fuel →
       ∃ s2, fetch_router_info w (some tok) T fuel
           = some (.error .deadlineBeforeRouterInfo, s2) ∧
         s2.events = [] ∧ s2.authCalls = 0 ∧ s2.fetchCalls = 0) ∧
    (∀ (w : World) (tok : String) (T : Time) (e : RpcCallError),
       remaining_at (w.times 0 + T) (w.times 1) ≠ 0 →
       w.fetchResp 0 = .error e → is_token_err e = true →
       remaining_at (w.times 0 + T) (w.times 2) = 0 →
       ∀ fuel : Nat, 1 ≤ fuel →
       ∃ s2, fetch_router_info w (some tok) T fuel
           = some (.error .deadlineBeforeReauth, s2) ∧
         s2.authCalls = 0 ∧ s2.fetchCalls = 1) := by
  refine ⟨?_, ?_, ?_, ?_⟩
  · intro w token0 T fuel r s2 h
    exact run_fetch_eventsOK w (w.times 0 + T) fuel (init_state token0) r s2 h
      (by intro ev hmem; simp [init_state] at hmem)
  · intro w T hz fuel hfuel
    obtain ⟨k, rfl⟩ : ∃ k, fuel = k + 1 := ⟨fuel - 1, by omega⟩
    refine ⟨(⟨none, 2, 0, 0, false, []⟩ : SeqState), ?_, rfl, rfl, rfl⟩
    simp only [fetch_router_info, run_fetch, loop_iter, init_state, read_now,
      hz, if_pos]
  · intro w tok T hz fuel hfuel
    obtain ⟨k, rfl⟩ : ∃ k, fuel = k + 1 := ⟨fuel - 1, by omega⟩
    refine ⟨(⟨some tok, 2, 0, 0, false, []⟩ : SeqState), ?_, rfl, rfl, rfl⟩
    simp only [fetch_router_info, run_fetch, loop_iter, after_token, init_state,
      read_now, hz, if_pos]
  · intro w tok T e hz1 hf0 hte hz2 fuel hfuel
    obtain ⟨k, rfl⟩ : ∃ k, fuel = k + 1 := ⟨fuel - 1, by omega⟩
    refine ⟨(⟨none, 3, 0, 1, false,
      [Event.fetchCall (remaining_at (w.times 0 + T) (w.times 1))]⟩ : SeqState),
      ?_, rfl, rfl⟩
    simp only [fetch_router_info, run_fetch, loop_iter, after_token, init_state,
      read_now]
    rw [if_neg hz1]
    simp only [hf0, hte, Bool.not_false, Bool.and_self, if_true, hz2, if_pos]
    rfl

/-- Witness for C5: against an environment whose clock jumps past the
deadline right after entry, a token-less fetch fails locally with the
synthetic deadline error and dispatches nothing. -/
theorem fetch_deadline_discipline_witness :
    ∃ s2, fetch_router_info stubLateClockWorld none 10 2
        = some (.error .deadlineBeforeAuth, s2) ∧
      s2.events = [] ∧ s2.authCalls = 0 ∧ s2.fetchCalls = 0 :=
  fetch_deadline_discipline.2.1 stubLateClockWorld 10
    (by norm_num [stubLateClockWorld, remaining_at]) 2 (by omega)

/-- C2: inside `fetch_router_info`, a failed status fetch triggers
clear-token / re-authenticate / retry exactly when it is a credential-expiry
`Rpc` error (code in -32004..-32002) on the first attempt: (a) any
non-credential error is returned unchanged with no re-authentication and the
token kept; (b) a first credential error clears the token, dispatches exactly
one re-authentication and retries the status fetch once, succeeding when the
retry succeeds; (c) a failing re-authentication has its error propagated,
with the token left cleared; (d) a second credential-expiry error is returned
as-is with no further authentication. -/
theorem fetch_retry_policy :
    (∀ (w : World) (tok : String) (T : Time) (e : RpcCallError),
       remaining_at (w.times 0 + T) (w.times 1) ≠ 0 →
       w.fetchResp 0 = .error e → is_token_err e = false →
       ∃ s2, fetch_router_info w (some tok) T 2 = some (.error (.rpc e), s2) ∧
         s2.fetchCalls = 1 ∧ s2.authCalls = 0 ∧ s2.token = some tok ∧
         s2.did_retry = false) ∧
    (∀ (w : World) (tok tok' : String) (T : Time) (e : RpcCallError)
       (data : RouterInfoResult),
       remaining_at (w.times 0 + T) (w.times 1) ≠ 0 →
       remaining_at (w.times 0 + T) (w.times 2) ≠ 0 →
       remaining_at (w.times 0 + T) (w.times 3) ≠ 0 →
       w.fetchResp 0 = .error e → is_token_err e = true →
       w.authResp 0 = .ok ⟨some tok'⟩ → w.fetchResp 1 = .ok data →
       ∃ s2, fetch_router_info w (some tok) T 2 = some (.ok data, s2) ∧
         s2.fetchCalls = 2 ∧ s2.authCalls = 1 ∧ s2.token = some tok' ∧
         s2.did_retry = true) ∧
    (∀ (w : World) (tok : String) (T : Time) (e ea : RpcCallError),
       remaining_at (w.times 0 + T) (w.times 1) ≠ 0 →
       remaining_at (w.times 0 + T) (w.times 2) ≠ 0 →
       w.fetchResp 0 = .error e → is_token_err e = true →
       w.authResp 0 = .error ea →
       ∃ s2, fetch_router_info w (some tok) T 2 = some (.error (.rpc ea), s2) ∧
         s2.fetchCalls = 1 ∧ s2.authCalls = 1 ∧ s2.token = none) ∧
    (∀ (w : World) (tok tok' : String) (T : Time) (e e' : RpcCallError),
       remaining_at (w.times 0 + T) (w.times 1) ≠ 0 →
       remaining_at (w.times 0 + T) (w.times 2) ≠ 0 →
       remaining_at (w.times 0 + T) (w.times 3) ≠ 0 →
       w.fetchResp 0 = .error e → is_token_err e = true →
       w.authResp 0 = .ok ⟨some tok'⟩ →
       w.fetchResp 1 = .error e' → is_token_err e' = true →
       ∃ s2, fetch_router_info w (some tok) T 2 = some (.error (.rpc e'), s2) ∧
         s2.fetchCalls = 2 ∧ s2.authCalls = 1) := by
  refine ⟨?_, ?_, ?_, ?_⟩
  · intro w tok T e h1 hf0 hte
    refine ⟨(⟨some tok, 2, 0, 1, false,
      [Event.fetchCall (remaining_at (w.times 0 + T) (w.times 1))]⟩ : SeqState),
      ?_, rfl, rfl, rfl, rfl⟩
    simp only [fetch_router_info, run_fetch, loop_iter, after_token, init_state,
      read_now]
    rw [if_neg h1]
    simp only [hf0, hte, Bool.false_and, Bool.false_eq_true, if_false]
    rfl
  · intro w tok tok' T e data h1 h2 h3 hf0 hte ha0 hf1
    refine ⟨(⟨some tok', 4, 1, 2, true,
      [Event.fetchCall (remaining_at (w.times 0 + T) (w.times 1)),
       Event.authCall (remaining_at (w.times 0 + T) (w.times 2)),
       Event.fetchCall (remaining_at (w.times 0 + T) (w.times 3))]⟩ : SeqState),
      ?_, rfl, rfl, rfl, rfl⟩
    simp only [fetch_router_info, run_fetch, loop_iter, after_token, init_state,
      read_now, authenticate]
    rw [if_neg h1]
    simp only [hf0, hte, Bool.not_false, Bool.and_self, if_true]
    rw [if_neg h2]
    simp only [ha0]
    rw [if_neg h3]
    simp only [hf1]
    rfl
  · intro w tok T e ea h1 h2 hf0 hte ha0
    refine ⟨(⟨none, 3, 1, 1, false,
      [Event.fetchCall (remaining_at (w.times 0 + T) (w.times 1)),
       Event.authCall (remaining_at (w.times 0 + T) (w.times 2))]⟩ : SeqState),
      ?_, rfl, rfl, rfl⟩
    simp only [fetch_router_info, run_fetch, loop_iter, after_token, init_state,
      read_now, authenticate]
    rw [if_neg h1]
    simp only [hf0, hte, Bool.not_false, Bool.and_self, if_true]
    rw [if_neg h2]
    simp only [ha0]
    rfl
  · intro w tok tok' T e e' h1 h2 h3 hf0 hte ha0 hf1 hte'
    refine ⟨(⟨some tok', 4, 1, 2, true,
      [Event.fetchCall (remaining_at (w.times 0 + T) (w.times 1)),
       Event.authCall (remaining_at (w.times 0 + T) (w.times 2)),
       Event.fetchCall (remaining_at (w.times 0 + T) (w.times 3))]⟩ : SeqState),
      ?_, rfl, rfl⟩
    simp only [fetch_router_info, run_fetch, loop_iter, after_token, init_state,
      read_now, authenticate]
    rw [if_neg h1]
    simp only [hf0, hte, Bool.not_false, Bool.and_self, if_true]
    rw [if_neg h2]
    simp only [ha0]
    rw [if_neg h3]
    simp only [hf1, Bool.not_true, Bool.and_false, Bool.false_eq_true, if_false]
    rfl

/-- Witness for C2 (scenario b) at the concrete stub environment: first
status fetch rejected with code -32002, one re-authentication, retry
succeeds. -/
theorem fetch_retry_policy_witness :
    ∃ s2, fetch_router_info stubRetryOkWorld (some "old") 10 2
        = some (.ok RouterInfoResult.empty, s2) ∧
      s2.fetchCalls = 2 ∧ s2.authCalls = 1 ∧ s2.token = some "fresh" ∧
      s2.did_retry = true :=
  fetch_retry_policy.2.1 stubRetryOkWorld "old" "fresh" 10
    (.rpc (-32002) "nonexistent token" "RouterInfo") RouterInfoResult.empty
    (by norm_num [stubRetryOkWorld, remaining_at])
    (by norm_num [stubRetryOkWorld, remaining_at])
    (by norm_num [stubRetryOkWorld, remaining_at])
    rfl (by decide) rfl rfl

/-- One step of any task, under any response oracle, preserves the lock
discipline. -/
theorem authStep_lockInv {n : Nat} (resp : Nat → Except RpcCallError AuthResult)
    (s : AuthSys n) (i : Fin n) (h : LockInv s) :
    LockInv (authStep resp s i) := by
  obtain ⟨hL, hC⟩ := h
  cases hp : s.phase i with
  | start =>
    cases hl : s.lockHeld with
    | none =>
      constructor
      · intro j hj
        simp only [authStep, hp, hl] at hj ⊢
        by_cases hji : j = i
        · simp [hji]
        · simp only [hji, if_false] at hj
          exact absurd ((hL j hj).symm.trans hl) (by simp)
      · intro j k hj
        simp only [authStep, hp, hl] at hj ⊢
        by_cases hji : j = i
        · simp [hji] at hj
        · simp only [hji, if_false] at hj
          exact absurd ((hC j k hj).1.symm.trans hl) (by simp)
    | some l =>
      simp only [authStep, hp, hl]
      exact ⟨hL, hC⟩
  | locked =>
    have hli : s.lockHeld = some i := hL i hp
    cases ht : s.token with
    | some t =>
      constructor
      · intro j hj
        simp only [authStep, hp, ht] at hj ⊢
        by_cases hji : j = i
        · simp [hji] at hj
        · simp only [hji, if_false] at hj
          have := hL j hj
          rw [hli] at this
          simp only [Option.some.injEq] at this
          exact absurd this.symm hji
      · intro j k hj
        simp only [authStep, hp, ht] at hj ⊢
        by_cases hji : j = i
        · simp [hji] at hj
        · simp only [hji, if_false] at hj
          have := (hC j k hj).1
          rw [hli] at this
          simp only [Option.some.injEq] at this
          exact absurd this.symm hji
    | none =>
      constructor
      · intro j hj
        simp only [authStep, hp, ht] at hj ⊢
        by_cases hji : j = i
        · simp [hji] at hj
        · simp only [hji, if_false] at hj
          have := hL j hj
          rw [hli] at this
          simp only [Option.some.injEq] at this
          exact absurd this.symm hji
      · intro j k hj
        simp only [authStep, hp, ht] at hj ⊢
        by_cases hji : j = i
        · subst hji
          simp only [if_true, AuthPhase.inCall.injEq, reduceIte] at hj
          subst hj
          exact ⟨hli, rfl⟩
        · simp only [hji, if_false] at hj
          have := (hC j k hj).1
          rw [hli] at this
          simp only [Option.some.injEq] at this
          exact absurd this.symm hji
  | inCall k0 =>
    have hli : s.lockHeld = some i := (hC i k0 hp).1
    have hstep : ∀ (res : Except ClientError String) (tk : Option String)
        (nc : Nat),
        LockInv (⟨tk, none,
          fun j => if j = i then .doneAt res else s.phase j, nc⟩ : AuthSys n) := by
      intro res tk nc
      constructor
      · intro j hj
        simp only at hj
        by_cases hji : j = i
        · simp [hji] at hj
        · simp only [hji, if_false] at hj
          have := hL j hj
          rw [hli] at this
          simp only [Option.some.injEq] at this
          exact absurd this.symm hji
      · intro j k hj
        simp only at hj
        by_cases hji : j = i
        · simp [hji] at hj
        · simp only [hji, if_false] at hj
          have := (hC j k hj).1
          rw [hli] at this
          simp only [Option.some.injEq] at this
          exact absurd this.symm hji
    cases hr : resp k0 with
    | error e =>
      simp only [authStep, hp, hr]
      exact hstep _ _ _
    | ok a =>
      cases hat : a.token with
      | some tok =>
        simp only [authStep, hp, hr, hat]
        exact hstep _ _ _
      | none =>
        simp only [authStep, hp, hr, hat]
        exact hstep _ _ _
  | doneAt r =>
    simp only [authStep, hp]
    exact ⟨hL, hC⟩

/-- One step of any task preserves the singleflight invariant, provided every
network response is a success carrying a token. -/
theorem authStep_singleInv {n : Nat}
    (resp : Nat → Except RpcCallError AuthResult)
    (hsucc : ∀ m, ∃ t, resp m = .ok ⟨some t⟩)
    (s : AuthSys n) (i : Fin n) (h : SingleInv s) :
    SingleInv (authStep resp s i) := by
  obtain ⟨hLI, hnc, htn, hdone, hts⟩ := h
  refine ⟨authStep_lockInv resp s i hLI, ?_⟩
  obtain ⟨hL, hC⟩ := hLI
  cases hp : s.phase i with
  | start =>
    cases hl : s.lockHeld with
    | none =>
      simp only [authStep, hp, hl]
      refine ⟨hnc, ?_, ?_, hts⟩
      · intro ht
        rcases htn ht with h0 | ⟨j, k, hj⟩
        · exact Or.inl h0
        · refine Or.inr ⟨j, k, ?_⟩
          have hji : ¬ j = i := fun he => by rw [he, hp] at hj; cases hj
          simp only [hji, if_false]
          exact hj
      · intro j r hj
        by_cases hji : j = i
        · simp [hji] at hj
        · simp only [hji, if_false] at hj
          exact hdone j r hj
    | some l =>
      simp only [authStep, hp, hl]
      exact ⟨hnc, htn, hdone, hts⟩
  | locked =>
    have hli : s.lockHeld = some i := hL i hp
    cases ht : s.token with
    | some t =>
      simp only [authStep, hp, ht]
      refine ⟨hnc, by simp, ?_, ?_⟩
      · intro j r hj
        rfl
      · intro _
        exact hts (by rw [ht]; rfl)
    | none =>
      simp only [authStep, hp, ht]
      have hzero : s.netCalls = 0 := by
        rcases htn ht with h0 | ⟨j, k, hj⟩
        · exact h0
        · have hlj := (hC j k hj).1
          rw [hli] at hlj
          simp only [Option.some.injEq] at hlj
          rw [← hlj, hp] at hj
          cases hj
      refine ⟨by omega, ?_, ?_, by simp⟩
      · intro _
        exact Or.inr ⟨i, s.netCalls, by simp⟩
      · intro j r hj
        by_cases hji : j = i
        · simp [hji] at hj
        · simp only [hji, if_false] at hj
          have := hdone j r hj
          rw [ht] at this
          cases this
  | inCall k0 =>
    obtain ⟨t, hr⟩ := hsucc k0
    have hk0 : k0 + 1 = s.netCalls := (hC i k0 hp).2
    simp only [authStep, hp, hr]
    refine ⟨hnc, by simp, fun j r hj => rfl, fun _ => by omega⟩
  | doneAt r =>
    simp only [authStep, hp]
    exact ⟨hnc, htn, hdone, hts⟩

/-- The lock discipline holds along any schedule, from any state satisfying
it. -/
theorem authRun_lockInv {n : Nat} (resp : Nat → Except RpcCallError AuthResult) :
    ∀ (sched : List (Fin n)) (s : AuthSys n), LockInv s →
      LockInv (authRun resp s sched) := by
  intro sched
  induction sched with
  | nil => intro s h; exact h
  | cons i rest ih =>
    intro s h
    exact ih (authStep resp s i) (authStep_lockInv resp s i h)

/-- The singleflight invariant holds along any schedule under an
always-successful oracle, from any state satisfying it. -/
theorem authRun_singleInv {n : Nat}
    (resp : Nat → Except RpcCallError AuthResult)
    (hsucc : ∀ m, ∃ t, resp m = .ok ⟨some t⟩) :
    ∀ (sched : List (Fin n)) (s : AuthSys n), SingleInv s →
      SingleInv (authRun resp s sched) := by
  intro sched
  induction sched with
  | nil => intro s h; exact h
  | cons i rest ih =>
    intro s h
    exact ih (authStep resp s i) (authStep_singleInv resp hsucc s i h)

/-- The initial no-token state satisfies both invariants. -/
theorem authInit_singleInv (n : Nat) : SingleInv (authInit n) := by
  refine ⟨⟨?_, ?_⟩, ?_, ?_, ?_, ?_⟩
  · intro i hi
    cases hi
  · intro i k hi
    cases hi
  · exact Nat.zero_le 1
  · intro _
    exact Or.inl rfl
  · intro i r hi
    cases hi
  · intro h
    cases h

/-- C4: singleflight refresh. (1) Mutual exclusion: under any response oracle
and any interleaving of N concurrent `authenticate` callers starting with no
cached token, at most one task ever has a network authentication in flight.
(2) With a stub server whose `Authenticate` always succeeds, any interleaving
in which all N callers (N ≥ 1) have returned issues exactly one
`Authenticate` network call. (3) A caller that holds the refresh guard after
another caller completed a refresh re-reads the shared token and returns it
without dispatching any network call. -/
theorem authenticate_singleflight :
    (∀ (n : Nat) (resp : Nat → Except RpcCallError AuthResult)
       (sched : List (Fin n)) (i j : Fin n) (k k' : Nat),
       (authRun resp (authInit n) sched).phase i = .inCall k →
       (authRun resp (authInit n) sched).phase j = .inCall k' → i = j) ∧
    (∀ (n : Nat) (resp : Nat → Except RpcCallError AuthResult)
       (sched : List (Fin n)), 0 < n →
       (∀ m, ∃ t, resp m = .ok ⟨some t⟩) →
       (∀ i, ((authRun resp (authInit n) sched).phase i).isDone = true) →
       (authRun resp (authInit n) sched).netCalls = 1) ∧
    (∀ (n : Nat) (resp : Nat → Except RpcCallError AuthResult)
       (s : AuthSys n) (i : Fin n) (t : String),
       s.phase i = .locked → s.token = some t →
       (authStep resp s i).netCalls = s.netCalls ∧
       (authStep resp s i).phase i = .doneAt (.ok t)) := by
  refine ⟨?_, ?_, ?_⟩
  · intro n resp sched i j k k' hi hj
    have hLI := authRun_lockInv resp sched (authInit n)
      (authInit_singleInv n).1
    have h1 := (hLI.2 i k hi).1
    have h2 := (hLI.2 j k' hj).1
    rw [h1] at h2
    simpa using h2
  · intro n resp sched hn hsucc hall
    obtain ⟨hLI, hnc, htn, hdone, hts⟩ :=
      authRun_singleInv resp hsucc sched (authInit n) (authInit_singleInv n)
    set sF := authRun resp (authInit n) sched with hsF
    have hi0 := hall ⟨0, hn⟩
    cases hph : sF.phase ⟨0, hn⟩ with
    | doneAt r =>
      have h1 := hdone ⟨0, hn⟩ r hph
      have h2 := hts h1
      omega
    | start => rw [hph] at hi0; cases hi0
    | locked => rw [hph] at hi0; cases hi0
    | inCall k => rw [hph] at hi0; cases hi0
  · intro n resp s i t hp ht
    constructor
    · simp only [authStep, hp, ht]
    · simp [authStep, hp, ht]

/-- Witness for C4 at a concrete instance: two concurrent callers, the
always-successful stub oracle, and the interleaving in which task 0 refreshes
first — exactly one network authentication happens. -/
theorem authenticate_singleflight_witness :
    (authRun stubAuthRespOk (authInit 2) sched2).netCalls = 1 :=
  authenticate_singleflight.2.1 2 stubAuthRespOk sched2 (by omega)
    (fun m => ⟨"tok", rfl⟩) (by decide)
